import Mathlib

/-!
Verification of the ingest-and-normalize pipeline and form handler of run.py.

The program is shallowly embedded: pandas dataframes become lists of row
structures, the external collaborators (the geopy geocoder and the pandas date
parser) become explicit arguments, and the on-disk cache and raw dataset become
explicit list arguments, with a boolean standing for os.path.exists(file_path).
Dates are triples of naturals ordered chronologically; numeric payloads
(casualty counts and the coordinates, which are only ever copied, never
computed with) are integers.
-/

namespace Run

/-- Calendar date as produced by pandas to_datetime(...).dt.date. -/
structure PyDate where
  year : Nat
  month : Nat
  day : Nat
deriving DecidableEq

/-- Chronological order on dates: by year, then month, then day. -/
def PyDate.le (a b : PyDate) : Prop :=
  a.year < b.year ∨
    (a.year = b.year ∧ (a.month < b.month ∨ (a.month = b.month ∧ a.day ≤ b.day)))

instance (a b : PyDate) : Decidable (PyDate.le a b) := by
  unfold PyDate.le
  exact inferInstance

/-- One row of the raw dataset data/gun_violence.csv, restricted to the columns
run.py selects (the unused metadata columns are dropped unread).  Every field is
optional because a raw cell may be missing (NaN). -/
structure RawRow where
  date : Option PyDate
  state : Option String
  city_or_county : Option String
  address : Option String
  n_killed : Option Int
  n_injured : Option Int
  latitude : Option Int
  longitude : Option Int
deriving DecidableEq

/-- A fully populated row, as written to data/shootings.csv by the fresh branch
of get_shootings after the severity query, the column selection and dropna. -/
structure CacheRow where
  date : PyDate
  state : String
  city_or_county : String
  address : String
  n_killed : Int
  n_injured : Int
  latitude : Int
  longitude : Int
deriving DecidableEq

/-- A row of the dataframe returned by get_shootings: the cache columns plus the
derived total and full_address columns.  The month_name / month_number columns
exist only on rows appended by the form handler (missing, i.e. none, on rows
built by the pipeline). -/
structure Row where
  date : PyDate
  state : String
  city_or_county : String
  address : String
  n_killed : Int
  n_injured : Int
  latitude : Int
  longitude : Int
  total : Int
  full_address : String
  month_name : Option String
  month_number : Option Nat
deriving DecidableEq

/-- The predicate of the pandas query n_killed + n_injured > 3: a row passes
only when both counts are present (a pandas comparison against NaN is false)
and their sum exceeds 3. -/
def queryPred (r : RawRow) : Bool :=
  match r.n_killed, r.n_injured with
  | some k, some i => decide (k + i > 3)
  | _, _ => false

/-- df.query on n_killed + n_injured > 3, the fresh branch filter. -/
def queryTotal (rows : List RawRow) : List RawRow :=
  rows.filter queryPred

/-- Per-row effect of df.dropna() after the column selection: the row survives
exactly when every selected column is present. -/
def dropnaRow (r : RawRow) : Option CacheRow :=
  match r.date, r.state, r.city_or_county, r.address,
      r.n_killed, r.n_injured, r.latitude, r.longitude with
  | some d, some s, some c, some a, some k, some i, some la, some lo =>
      some ⟨d, s, c, a, k, i, la, lo⟩
  | _, _, _, _, _, _, _, _ => none

/-- df.dropna() over the selected columns. -/
def dropna (rows : List RawRow) : List CacheRow :=
  rows.filterMap dropnaRow

/-- The rows the fresh branch of get_shootings builds and writes to
data/shootings.csv: severity query, column selection, then dropna. -/
def freshRows (raw : List RawRow) : List CacheRow :=
  dropna (queryTotal raw)

/-- The combined per-row keep rule of the fresh branch (query then dropna). -/
def keepRow (r : RawRow) : Option CacheRow :=
  if queryPred r then dropnaRow r else none

/-- The date order used by df.sort_values by date, lifted to cache rows. -/
def byDate (a b : CacheRow) : Prop :=
  PyDate.le a.date b.date

instance : DecidableRel byDate := by
  unfold byDate
  exact fun a b => inferInstance

instance : IsTotal CacheRow byDate :=
  ⟨fun a b => by unfold byDate PyDate.le; omega⟩

instance : IsTrans CacheRow byDate :=
  ⟨fun a b c h1 h2 => by unfold byDate PyDate.le at h1 h2 ⊢; omega⟩

/-- The derived columns get_shootings adds after sorting:
total = n_killed + n_injured and
full_address = address, comma, city_or_county, comma, state. -/
def toRow (c : CacheRow) : Row :=
  { date := c.date, state := c.state, city_or_county := c.city_or_county,
    address := c.address, n_killed := c.n_killed, n_injured := c.n_injured,
    latitude := c.latitude, longitude := c.longitude,
    total := c.n_killed + c.n_injured,
    full_address := c.address ++ ", " ++ c.city_or_county ++ ", " ++ c.state,
    month_name := none, month_number := none }

/-- The cleanup get_shootings applies to whichever branch produced the rows:
parse the date column, sort ascending by date (sort_values is modelled by
insertion sort; only the ordering matters to the claims), then add the derived
total and full_address columns. -/
def cleanup (rows : List CacheRow) : List Row :=
  (List.insertionSort byDate rows).map toRow

/-- get_shootings.  cacheExists stands for os.path.exists(file_path), cache for
the contents of data/shootings.csv (after remove_unnamed_column) and raw for the
contents of data/gun_violence.csv.  If the cache exists it is loaded as is;
otherwise the raw dataset is queried, projected, dropna-ed and written as the
new cache.  Either branch then gets the same cleanup.  No geocoding happens in
either branch: the function takes no geocoder at all. -/
def get_shootings (cacheExists : Bool) (cache : List CacheRow) (raw : List RawRow) :
    List Row :=
  if cacheExists then cleanup cache else cleanup (freshRows raw)

/-- A geopy location: location[0] is the display address (a comma-separated
string), and the object carries the resolved coordinates. -/
structure Location where
  display : String
  latitude : Int
  longitude : Int
deriving DecidableEq

/-- Outcome of one geolocator.geocode(search) call: a normal return (of a
location, or of Python None when nothing was found) or a raised exception of
any kind (not-found errors, network failures, malformed responses). -/
inductive GeoResult where
  | ok (loc : Option Location)
  | raised
deriving DecidableEq

/-- Result of running a Python function: a returned value, or an uncaught
exception propagating to the caller. -/
inductive PyResult (α : Type) where
  | ok (a : α)
  | exn
deriving DecidableEq

/-- get_location, with its two geolocator.geocode calls made explicit: r1 is
the result of the call inside the try block, r2 the result of the second,
unguarded call on the line before the return.  If the first call raises, the
except clause swallows the exception but leaves the local variable location
unassigned; the second call then either raises itself, or the return raises a
NameError on the unbound variable — either way an exception propagates.  If the
first call returns, the second call is still made, its result is discarded, and
it too can raise. -/
def get_location (r1 r2 : GeoResult) : PyResult (Option Location) :=
  match r1, r2 with
  | .ok loc, .ok _ => .ok loc
  | .ok _, .raised => .exn
  | .raised, _ => .exn

/-- Events observable at the geocoding layer: an outgoing geocode call, or a
deliberate delay of the given duration. -/
inductive GeoEvent where
  | call
  | sleep (duration : Nat)
deriving DecidableEq

/-- The sequence of geocoding-layer events of one get_location invocation:
whatever the two geocode calls return or raise, both are issued, back to back,
and no delay of any kind is ever inserted (run.py contains no sleep and no
rate limiter). -/
def get_location_trace (r1 r2 : GeoResult) : List GeoEvent :=
  match r1, r2 with
  | _, _ => [.call, .call]

/-- After a call has been issued: accumulate sleep and demand at least minDelay
of it before the next call. -/
def delayFrom (minDelay acc : Nat) : List GeoEvent → Bool
  | [] => true
  | .sleep d :: t => delayFrom minDelay (acc + d) t
  | .call :: t => decide (minDelay ≤ acc) && delayFrom minDelay 0 t

/-- A trace respects the minimum inter-call delay when every pair of
consecutive calls has at least minDelay of sleep between them. -/
def respectsDelay (minDelay : Nat) : List GeoEvent → Bool
  | [] => true
  | .sleep _ :: t => respectsDelay minDelay t
  | .call :: t => delayFrom minDelay 0 t

/-- Python str.split(sep) on the character list of the string: splitting the
empty string yields one empty field, and every separator opens a new field. -/
def pySplitAux (sep : Char) : List Char → List (List Char)
  | [] => [[]]
  | c :: rest =>
    match pySplitAux sep rest with
    | h :: t => if c = sep then [] :: h :: t else (c :: h) :: t
    | [] => [[]]

/-- Python str.split(sep), as used to split location[0] at commas. -/
def pySplit (s : String) (sep : Char) : List String :=
  (pySplitAux sep s.toList).map fun cs => ⟨cs⟩

/-- Python str.strip(): remove leading and trailing whitespace. -/
def pyStrip (s : String) : String :=
  ⟨((s.toList.dropWhile Char.isWhitespace).reverse.dropWhile
      Char.isWhitespace).reverse⟩

/-- Python str.lower() (ASCII case folding, which covers every string the
country check compares against). -/
def pyLower (s : String) : String :=
  ⟨s.toList.map Char.toLower⟩

/-- Python int(s) on a string: surrounding whitespace allowed, then an optional
sign and one or more decimal digits; anything else raises ValueError (none). -/
def digitsToNat (ds : List Char) : Nat :=
  ds.foldl (fun n c => n * 10 + (c.toNat - 48)) 0

/-- Python int() applied to the submitted injured / killed form value. -/
def pyInt (s : String) : Option Int :=
  let cs := (pyStrip s).toList
  let signed : Int × List Char :=
    match cs with
    | '-' :: rest => (-1, rest)
    | '+' :: rest => (1, rest)
    | _ => (1, cs)
  if signed.2 ≠ [] ∧ signed.2.all (·.isDigit) then
    some (signed.1 * digitsToNat signed.2)
  else
    none

/-- calendar.month_name: index 0 is the empty string, 1 to 12 the English month
names. -/
def month_name : Nat → String
  | 1 => "January"
  | 2 => "February"
  | 3 => "March"
  | 4 => "April"
  | 5 => "May"
  | 6 => "June"
  | 7 => "July"
  | 8 => "August"
  | 9 => "September"
  | 10 => "October"
  | 11 => "November"
  | 12 => "December"
  | _ => ""

/-- The country allow-list test of record_shooting: the chained condition in
the source rejects unless the lowercased country equals one of the four
accepted spellings. -/
def isUSCountry (country : String) : Bool :=
  pyLower country == "united states" || pyLower country == "usa" ||
    pyLower country == "u.s.a." || pyLower country == "united states of america"

/-- The alert texts record_shooting returns (the backslash-continued source
literals, with the continuation whitespace normalized to one space). -/
def msg_required : String :=
  "All fields are required and negative numbers are not allowed."

/-- Alert shown when the geocode lookup or the component extraction raises. -/
def msg_address : String :=
  "Address must be a valid Google Maps address in the United States."

/-- Alert shown when the resolved country is not in the allow-list. -/
def msg_us : String :=
  "Address must be in the United States."

/-- Alert shown when int() raises a ValueError on the submitted counts. -/
def msg_counts : String :=
  "Injured and Killed are required and must be non-negative integers."

/-- Alert shown when pandas cannot parse the submitted date. -/
def msg_date : String :=
  "Invalid date format."

/-- The observable outcome of one record_shooting callback: the alert text,
whether the alert is opened, and the dataframe written to data/shootings.csv —
none when no write occurs, in which case the displayed table is rebuilt from
the unchanged shootings_df. -/
structure FormResult where
  alert : String
  alertOpen : Bool
  written : Option (List Row)
deriving DecidableEq

/-- Stage 4 of record_shooting: FORMATTING DATE.  pd.to_datetime is the
external collaborator parseDate; on success the new row is built, concatenated
to shootings_df and written to the csv file. -/
def dateStage (shootings_df : List Row) (parseDate : String → Option PyDate)
    (dv : String) (loc : Location)
    (address city_or_county state country : String)
    (injured killed : Int) : FormResult :=
  match parseDate dv with
  | some d =>
      let row : Row :=
        { date := d, state := state, city_or_county := city_or_county,
          address := address, n_killed := killed, n_injured := injured,
          latitude := loc.latitude, longitude := loc.longitude,
          total := injured + killed,
          full_address :=
            address ++ ", " ++ city_or_county ++ ", " ++ state ++ ", " ++ country,
          month_name := some (month_name d.month),
          month_number := some d.month }
      ⟨"", false, some (shootings_df ++ [row])⟩
  | none => ⟨msg_date, true, none⟩

/-- Stage 3 of record_shooting: int() on the injured and killed values; a
ValueError from either is caught.  No sign check is performed. -/
def countStage (shootings_df : List Row) (parseDate : String → Option PyDate)
    (dv iv kv : String) (loc : Location)
    (address city_or_county state country : String) : FormResult :=
  match pyInt iv, pyInt kv with
  | some injured, some killed =>
      dateStage shootings_df parseDate dv loc
        address city_or_county state country injured killed
  | _, _ => ⟨msg_counts, true, none⟩

/-- Stage 2 of record_shooting: the country allow-list check. -/
def usStage (shootings_df : List Row) (parseDate : String → Option PyDate)
    (dv iv kv : String) (loc : Location)
    (address city_or_county state country : String) : FormResult :=
  if isUSCountry country then
    countStage shootings_df parseDate dv iv kv loc
      address city_or_county state country
  else
    ⟨msg_us, true, none⟩

/-- location_arr, the comma-split of location[0]. -/
def locationParts (loc : Location) : List String :=
  pySplit loc.display ','

/-- address = location_arr[0] + location_arr[1]. -/
def partAddress (loc : Location) : String :=
  (locationParts loc).getD 0 "" ++ (locationParts loc).getD 1 ""

/-- city_or_county = location_arr[-4].strip(). -/
def partCity (loc : Location) : String :=
  pyStrip ((locationParts loc).getD ((locationParts loc).length - 4) "")

/-- state = location_arr[-3].strip(). -/
def partState (loc : Location) : String :=
  pyStrip ((locationParts loc).getD ((locationParts loc).length - 3) "")

/-- country = location_arr[-1].strip(). -/
def partCountry (loc : Location) : String :=
  pyStrip ((locationParts loc).getD ((locationParts loc).length - 1) "")

/-- Stage 1 of record_shooting: GET GEOCODE AND EXTRACT VALUES.  The try block
covers the get_location call, the subscript location[0] (a TypeError when the
geocoder found nothing), the split on commas and the component extraction
(address from parts 0 and 1, city from part -4, state from part -3, country
from part -1 — an IndexError when fewer than four parts exist, since the
negative Python indices location_arr[-4], [-3], [-1] and the positive [0], [1]
are all in range exactly when at least four parts exist); every raised
exception lands in the except clause. -/
def geocodeStage (shootings_df : List Row) (parseDate : String → Option PyDate)
    (dv iv kv : String) (r1 r2 : GeoResult) : FormResult :=
  match get_location r1 r2 with
  | .ok (some loc) =>
      if 4 ≤ (locationParts loc).length then
        usStage shootings_df parseDate dv iv kv loc
          (partAddress loc) (partCity loc) (partState loc) (partCountry loc)
      else
        ⟨msg_address, true, none⟩
  | _ => ⟨msg_address, true, none⟩

/-- record_shooting, the NEW SHOOTING FORM HANDLER callback.  The external
collaborators appear as arguments: r1 and r2 are the geopy call results
consumed by the embedded get_location call on the submitted address, and
parseDate stands for pandas.to_datetime on the submitted date string (none when
it raises).  shootings_df is the record set the callback closes over; the form
values arrive as optional strings, None for an empty field.  The stages mirror
the source blocks: required-field loop, geocode try block, country check, int()
parse, date formatting, then concat and to_csv. -/
def record_shooting (shootings_df : List Row) (r1 r2 : GeoResult)
    (parseDate : String → Option PyDate)
    (date_value address_value injured_value killed_value : Option String) :
    FormResult :=
  match date_value, address_value, injured_value, killed_value with
  | some dv, some _, some iv, some kv =>
      geocodeStage shootings_df parseDate dv iv kv r1 r2
  | _, _, _, _ => ⟨msg_required, true, none⟩

/-- The country component record_shooting extracts from a geocode resolution:
the last comma-separated part of the display address, stripped — defined when
the lookup returns a location whose display splits into at least four parts. -/
def resolvedCountry (r1 r2 : GeoResult) : Option String :=
  match get_location r1 r2 with
  | .ok (some loc) =>
      if 4 ≤ (locationParts loc).length then
        some (partCountry loc)
      else
        none
  | _ => none

/-- A required form field was left empty. -/
def missingField (dv av iv kv : Option String) : Prop :=
  dv = none ∨ av = none ∨ iv = none ∨ kv = none

/-- The submitted address does not geocode: the lookup raises, finds nothing,
or resolves to a display address with fewer than four comma-separated parts
(so the component extraction raises an IndexError). -/
def geocodeFails (r1 r2 : GeoResult) : Prop :=
  get_location r1 r2 = .exn ∨ get_location r1 r2 = .ok none ∨
    ∃ loc, get_location r1 r2 = .ok (some loc) ∧
      (locationParts loc).length < 4

/-- The address resolves, but to a country outside the allow-list. -/
def nonUSAddress (r1 r2 : GeoResult) : Prop :=
  ∃ c, resolvedCountry r1 r2 = some c ∧ isUSCountry c = false

/-- A submitted count does not parse as a base-10 integer. -/
def countUnparsable (iv kv : Option String) : Prop :=
  (∃ s, iv = some s ∧ pyInt s = none) ∨ (∃ s, kv = some s ∧ pyInt s = none)

/-- The submitted date does not parse. -/
def invalidDate (parseDate : String → Option PyDate) (dv : Option String) : Prop :=
  ∃ s, dv = some s ∧ parseDate s = none

/-- Some validation step of the form handler fails: a missing required field,
an address that does not geocode, a non-US address, a count that does not
parse, or an invalid date. -/
def validationFails (r1 r2 : GeoResult) (parseDate : String → Option PyDate)
    (dv av iv kv : Option String) : Prop :=
  missingField dv av iv kv ∨ geocodeFails r1 r2 ∨ nonUSAddress r1 r2 ∨
    countUnparsable iv kv ∨ invalidDate parseDate dv

/-- The (month_name, month_number) group key get_shootings_by_month derives
from the date column of a row. -/
def monthKey (r : Row) : String × Nat :=
  (month_name r.date.month, r.date.month)

/-- One output row of get_shootings_by_month. -/
structure MonthCount where
  month_name : String
  month_number : Nat
  shootings : Nat
deriving DecidableEq

/-- The order used by the final sort_values by month_number. -/
def byMonthNumber (a b : MonthCount) : Prop :=
  a.month_number ≤ b.month_number

instance : DecidableRel byMonthNumber := by
  unfold byMonthNumber
  exact fun a b => inferInstance

instance : IsTotal MonthCount byMonthNumber :=
  ⟨fun a b => Nat.le_total a.month_number b.month_number⟩

instance : IsTrans MonthCount byMonthNumber :=
  ⟨fun _ _ _ h1 h2 => Nat.le_trans h1 h2⟩

/-- get_shootings_by_month: derive month_name and month_number from each date,
group by the pair and take group sizes, then sort by month_number.  groupby is
modelled as one output row per distinct key carrying the number of occurrences
of that key; the key-sorted intermediate order of the source is irrelevant:
the final sort supersedes it and keys are unique per month_number. -/
def get_shootings_by_month (df : List Row) : List MonthCount :=
  let keyed := df.map monthKey
  let grouped := keyed.dedup.map fun k => MonthCount.mk k.1 k.2 (keyed.count k)
  List.insertionSort byMonthNumber grouped

/-- A concrete raw row with three total victims and every field present. -/
def rawTotal3 : RawRow :=
  ⟨some ⟨2020, 1, 1⟩, some "Ohio", some "Dayton", some "1 Main St",
    some 2, some 1, some 39, some (-84)⟩

/-- A concrete raw row with four total victims and every field present. -/
def rawKept : RawRow :=
  ⟨some ⟨2020, 1, 1⟩, some "Ohio", some "Dayton", some "1 Main St",
    some 2, some 2, some 39, some (-84)⟩

/-- A concrete cache row dated 2020-01-01. -/
def cacheEarly : CacheRow :=
  ⟨⟨2020, 1, 1⟩, "Ohio", "Dayton", "1 Main St", 2, 2, 39, -84⟩

/-- A concrete cache row dated 2021-05-06. -/
def cacheLate : CacheRow :=
  ⟨⟨2021, 5, 6⟩, "Texas", "Austin", "2 Oak St", 3, 4, 30, -97⟩

/-- A concrete instance of the external date parser, for evaluating the form
handler at concrete inputs. -/
def sampleParseDate (s : String) : Option PyDate :=
  if s = "2020-01-01" then some ⟨2020, 1, 1⟩ else none

/-- A concrete geocoder hit whose display address has four comma-separated
parts and resolves to the United States. -/
def locUS : Location :=
  ⟨"A,B,C,USA", 42, -72⟩

/-- The row record_shooting appends for the locUS geocode, date 2020-01-01,
injured "-1" and killed "2". -/
def rowNeg1 : Row :=
  ⟨⟨2020, 1, 1⟩, "B", "A", "AB", 2, -1, 42, -72, 1, "AB, A, B, USA",
    some "January", some 1⟩

/-- The row record_shooting appends for the locUS geocode, date 2020-01-01,
injured "-5" and killed "2". -/
def rowNeg5 : Row :=
  ⟨⟨2020, 1, 1⟩, "B", "A", "AB", 2, -5, 42, -72, -3, "AB, A, B, USA",
    some "January", some 1⟩

/-!  Helper lemmas (shared; none of them is a claim theorem).  -/

theorem PyDate.le_refl (a : PyDate) : PyDate.le a a := by
  unfold PyDate.le
  omega

/-- The two filtering passes of the fresh branch fuse into the per-row rule. -/
theorem freshRows_eq_filterMap (raw : List RawRow) :
    freshRows raw = raw.filterMap keepRow := by
  simp only [freshRows, dropna, queryTotal, List.filterMap_filter]
  rfl

/-- The per-row keep rule fires exactly when every selected column is present
and the total victim count exceeds 3. -/
theorem keepRow_isSome_iff (r : RawRow) :
    (keepRow r).isSome ↔
      (r.date.isSome ∧ r.state.isSome ∧ r.city_or_county.isSome ∧
        r.address.isSome ∧ r.latitude.isSome ∧ r.longitude.isSome ∧
        ∃ k i, r.n_killed = some k ∧ r.n_injured = some i ∧ k + i > 3) := by
  rcases r with ⟨d, s, c, a, k, i, la, lo⟩
  cases d <;> cases s <;> cases c <;> cases a <;> cases k <;> cases i <;>
    cases la <;> cases lo <;>
      simp [keepRow, queryPred, dropnaRow, apply_ite Option.isSome]

/-- In a sorted list, the head (when any) is below every member. -/
theorem sorted_head_le {α : Type} {r : α → α → Prop} (hrefl : ∀ a, r a a)
    {l : List α} (hs : l.Sorted r) :
    ∀ h_ ∈ l.head?, ∀ x ∈ l, r h_ x := by
  cases l with
  | nil => intro h_ hh; simp at hh
  | cons a t =>
    intro h_ hh x hx
    have ha : a = h_ := by simpa using hh
    subst ha
    rcases List.mem_cons.mp hx with rfl | hx'
    · exact hrefl _
    · exact List.rel_of_sorted_cons hs _ hx'

/-- A some value of getLast? is a member of the list. -/
theorem mem_of_getLast?_mem {α : Type} :
    ∀ {l : List α} {a : α}, a ∈ l.getLast? → a ∈ l
  | [], a, h => by simp at h
  | [b], a, h => by
      have hba : b = a := by simpa using h
      subst hba
      simp
  | b :: c :: t, a, h => by
      have h' : a ∈ (c :: t).getLast? := by
        simpa [List.getLast?_cons_cons] using h
      exact List.mem_cons_of_mem b (mem_of_getLast?_mem h')

/-- In a sorted list, every member is below the last element (when any). -/
theorem sorted_le_getLast {α : Type} {r : α → α → Prop} (hrefl : ∀ a, r a a) :
    ∀ {l : List α}, l.Sorted r → ∀ z ∈ l.getLast?, ∀ x ∈ l, r x z
  | [], _, z, hz => by simp at hz
  | [a], _, z, hz => by
      intro x hx
      have hza : a = z := by simpa using hz
      have hxa : x = a := by simpa using hx
      subst hza; subst hxa
      exact hrefl _
  | a :: b :: t, hs, z, hz => by
      intro x hx
      have hz' : z ∈ (b :: t).getLast? := by
        simpa [List.getLast?_cons_cons] using hz
      rcases List.mem_cons.mp hx with rfl | hx'
      · exact List.rel_of_sorted_cons hs _ (mem_of_getLast?_mem hz')
      · exact sorted_le_getLast hrefl hs.of_cons z hz' x hx'

/-- Summing a pointwise sum of two Nat-valued maps splits. -/
theorem sum_map_add_nat {α : Type} (f g : α → Nat) (l : List α) :
    (l.map fun x => f x + g x).sum = (l.map f).sum + (l.map g).sum := by
  induction l with
  | nil => rfl
  | cons a t ih => simp [ih]; omega

/-- Over a duplicate-free list containing a, the indicator of a sums to one. -/
theorem sum_indicator_one {α : Type} [DecidableEq α] (a : α) :
    ∀ (t : List α), t.Nodup → a ∈ t →
      (t.map fun x => if x = a then (1 : Nat) else 0).sum = 1 := by
  intro t
  induction t with
  | nil => intro _ h; cases h
  | cons b t ih =>
    intro hnd hmem
    rcases List.mem_cons.mp hmem with rfl | hmem'
    · have hz : ∀ x ∈ t, (if x = a then (1 : Nat) else 0) = 0 := by
        intro x hx
        have hxa : x ≠ a := fun h => (List.nodup_cons.mp hnd).1 (h ▸ hx)
        simp [hxa]
      have : (t.map fun x => if x = a then (1 : Nat) else 0).sum = 0 := by
        apply List.sum_eq_zero
        intro y hy
        rcases List.mem_map.mp hy with ⟨x, hx, rfl⟩
        exact hz x hx
      simp [this]
    · have hb : b ≠ a := by
        intro h
        exact (List.nodup_cons.mp hnd).1 (h ▸ hmem')
      simp only [List.map_cons, List.sum_cons, if_neg hb]
      rw [ih (List.nodup_cons.mp hnd).2 hmem']

/-- Counting each distinct element once recovers the length of the list. -/
theorem sum_count_dedup {α : Type} [BEq α] [LawfulBEq α] [DecidableEq α]
    (l : List α) :
    (l.dedup.map fun x => l.count x).sum = l.length := by
  induction l with
  | nil => simp
  | cons a t ih =>
    have hcount : ∀ x, (a :: t).count x = t.count x + (if x = a then 1 else 0) := by
      intro x
      rw [List.count_cons]
      by_cases hxa : x = a
      · simp [hxa]
      · have hax : a ≠ x := fun h => hxa h.symm
        simp [hxa, hax]
    by_cases ha : a ∈ t
    · rw [List.dedup_cons_of_mem ha]
      have h1 : (t.dedup.map fun x => (a :: t).count x).sum =
          (t.dedup.map fun x => t.count x + (if x = a then 1 else 0)).sum := by
        congr 1
        exact List.map_congr_left fun x _ => hcount x
      rw [h1, sum_map_add_nat, ih,
        sum_indicator_one a t.dedup (List.nodup_dedup t) (List.mem_dedup.mpr ha)]
      simp
    · rw [List.dedup_cons_of_not_mem ha]
      simp only [List.map_cons, List.sum_cons]
      have hhead : (a :: t).count a = t.count a + 1 := by
        rw [hcount a]; simp
      have htail : (t.dedup.map fun x => (a :: t).count x).sum =
          (t.dedup.map fun x => t.count x).sum := by
        congr 1
        apply List.map_congr_left
        intro x hx
        have hxa : x ≠ a := fun h => ha (h ▸ List.mem_dedup.mp hx)
        rw [hcount x]
        simp [hxa]
      rw [hhead, htail, ih, List.count_eq_zero_of_not_mem ha]
      simp [Nat.add_comm]

/-- With the cache present, get_shootings is the cleanup of the cache. -/
theorem get_shootings_true (cache : List CacheRow) (raw : List RawRow) :
    get_shootings true cache raw = cleanup cache := rfl

/-- With no cache, get_shootings is the cleanup of the filtered raw rows. -/
theorem get_shootings_false (cache : List CacheRow) (raw : List RawRow) :
    get_shootings false cache raw = cleanup (freshRows raw) := rfl

/-- Cleanup output is sorted by date. -/
theorem cleanup_sorted (rows : List CacheRow) :
    (cleanup rows).Sorted fun a b => PyDate.le a.date b.date :=
  (List.sorted_insertionSort byDate rows).map toRow fun _ _ h => h

/-- Cleanup output is the derived image of the input rows, up to order. -/
theorem cleanup_perm (rows : List CacheRow) :
    List.Perm (cleanup rows) (rows.map toRow) :=
  (List.perm_insertionSort byDate rows).map toRow

/-- Every cleanup output row is the derived image of some cache row. -/
theorem mem_cleanup {rows : List CacheRow} {r : Row} (h : r ∈ cleanup rows) :
    ∃ c : CacheRow, r = toRow c := by
  rcases List.mem_map.mp h with ⟨c, _, rfl⟩
  exact ⟨c, rfl⟩

/-- Anatomy of a successful record_shooting run: a write happens only when the
fields are present, the geocode lookup succeeds with an address of at least
four parts, the resolved country passes the allow-list, both counts parse and
the date parses; the written dataframe is the old one plus one row whose
total is the sum of the parsed counts. -/
theorem written_isSome_spec
    (df : List Row) (r1 r2 : GeoResult) (pd : String → Option PyDate)
    (dv av iv kv : Option String) (df' : List Row)
    (h : (record_shooting df r1 r2 pd dv av iv kv).written = some df') :
    ∃ (loc : Location) (country : String) (row : Row),
      get_location r1 r2 = .ok (some loc) ∧
      resolvedCountry r1 r2 = some country ∧
      isUSCountry country = true ∧
      df' = df ++ [row] ∧
      row.total = row.n_injured + row.n_killed ∧
      (∃ s j, iv = some s ∧ pyInt s = some j ∧ row.n_injured = j) ∧
      (∃ s k_, kv = some s ∧ pyInt s = some k_ ∧ row.n_killed = k_) := by
  cases dv with
  | none => simp [record_shooting] at h
  | some dvs =>
  cases av with
  | none => simp [record_shooting] at h
  | some avs =>
  cases iv with
  | none => simp [record_shooting] at h
  | some ivs =>
  cases kv with
  | none => simp [record_shooting] at h
  | some kvs =>
  simp only [record_shooting] at h
  cases hg : get_location r1 r2 with
  | exn => simp [geocodeStage, hg] at h
  | ok olo =>
    cases olo with
    | none => simp [geocodeStage, hg] at h
    | some loc =>
      simp only [geocodeStage, hg] at h
      by_cases hlen : 4 ≤ (locationParts loc).length
      · rw [if_pos hlen] at h
        simp only [usStage] at h
        by_cases hus : isUSCountry (partCountry loc) = true
        · rw [if_pos hus] at h
          simp only [countStage] at h
          cases hpi : pyInt ivs with
          | none => simp [hpi] at h
          | some inj =>
            cases hpk : pyInt kvs with
            | none => simp [hpi, hpk] at h
            | some kil =>
              simp only [hpi, hpk, dateStage] at h
              cases hpd : pd dvs with
              | none => simp [hpd] at h
              | some d =>
                simp only [hpd] at h
                refine ⟨loc, partCountry loc,
                  _, rfl, ?_, hus, (Option.some.inj h).symm, rfl,
                  ⟨ivs, inj, rfl, hpi, rfl⟩, ⟨kvs, kil, rfl, hpk, rfl⟩⟩
                simp [resolvedCountry, hg, hlen]
        · rw [if_neg hus] at h
          simp at h
      · rw [if_neg hlen] at h
        simp at h

/-!  Claim theorems.  -/

/-- C1, counterexample: the threshold of the claim (total victims > 2) is not
the one in the code.  A raw row with every field present and 2 killed + 1 injured has more
than 2 total victims, so the claim says it is kept, yet the query
n_killed + n_injured > 3 drops it and the resulting RecordSet is empty. -/
theorem C1_counterexample :
    rawTotal3.n_killed = some 2 ∧ rawTotal3.n_injured = some 1 ∧
    ((2 : Int) + 1 > 2) ∧
    (keepRow rawTotal3).isSome = false ∧
    freshRows [rawTotal3] = [] ∧
    get_shootings false [] [rawTotal3] = [] := by
  refine ⟨rfl, rfl, by decide, by decide, by decide, by decide⟩

/-- C1 (amended): in the no-cache run, a raw dataset row is kept iff every
selected column is present and its total victim count n_killed + n_injured
exceeds 3 (so incidents with 3 or fewer total victims are excluded, and rows
failing required-field extraction are excluded); the RecordSet get_shootings
builds consists, up to the date sort, of exactly the kept rows with their
derived columns. -/
theorem C1_severity_filter :
    (∀ raw : List RawRow, freshRows raw = raw.filterMap keepRow) ∧
    (∀ r : RawRow, (keepRow r).isSome ↔
      (r.date.isSome ∧ r.state.isSome ∧ r.city_or_county.isSome ∧
        r.address.isSome ∧ r.latitude.isSome ∧ r.longitude.isSome ∧
        ∃ k i, r.n_killed = some k ∧ r.n_injured = some i ∧ k + i > 3)) ∧
    (∀ (cache : List CacheRow) (raw : List RawRow),
      List.Perm (get_shootings false cache raw) ((freshRows raw).map toRow)) :=
  ⟨freshRows_eq_filterMap, keepRow_isSome_iff, fun _ raw => by
    rw [get_shootings_false]
    exact cleanup_perm (freshRows raw)⟩

/-- C1, witness: the amended rule evaluated at a concrete kept row. -/
theorem C1_severity_filter_witness :
    (keepRow rawKept).isSome ∧ freshRows [rawKept] = [rawKept].filterMap keepRow :=
  ⟨(C1_severity_filter.2.1 rawKept).mpr
      ⟨by decide, by decide, by decide, by decide, by decide, by decide,
        2, 2, rfl, rfl, by decide⟩,
    C1_severity_filter.1 [rawKept]⟩

/-- C4, counterexample: with an existing cache the pipeline does not return a
RecordSet identical to the cache contents — it re-sorts by date (and adds the
derived columns).  A two-row cache stored out of date order comes back in the
opposite order. -/
theorem C4_counterexample :
    (get_shootings true [cacheLate, cacheEarly] []).map Row.date =
      [⟨2020, 1, 1⟩, ⟨2021, 5, 6⟩] ∧
    [cacheLate, cacheEarly].map CacheRow.date = [⟨2021, 5, 6⟩, ⟨2020, 1, 1⟩] ∧
    (⟨2020, 1, 1⟩ : PyDate) ≠ ⟨2021, 5, 6⟩ ∧
    get_shootings true [cacheLate, cacheEarly] [] ≠
      [cacheLate, cacheEarly].map toRow := by
  refine ⟨by decide, by decide, by decide, by decide⟩

/-- C4 (amended): when the cache file exists, get_shootings short-circuits to
the cache: the raw source is never consulted (the result is independent of it)
and no geocoding occurs (get_shootings invokes no geocoder in either branch);
the result is the cleanup of the cache — the cache rows re-sorted by date with
the derived total and full_address columns added — hence a permutation of the
derived image of the cache contents, but not the cache contents verbatim. -/
theorem C4_cached_run :
    (∀ (cache : List CacheRow) (raw raw' : List RawRow),
      get_shootings true cache raw = get_shootings true cache raw') ∧
    (∀ (cache : List CacheRow) (raw : List RawRow),
      get_shootings true cache raw = cleanup cache) ∧
    (∀ (cache : List CacheRow) (raw : List RawRow),
      List.Perm (get_shootings true cache raw) (cache.map toRow)) :=
  ⟨fun _ _ _ => rfl, fun cache raw => get_shootings_true cache raw,
    fun cache raw => by
      rw [get_shootings_true]
      exact cleanup_perm cache⟩

/-- C4, witness: the cached run at concrete inputs ignores the raw dataset. -/
theorem C4_cached_run_witness :
    get_shootings true [cacheEarly] [] = get_shootings true [cacheEarly] [rawTotal3] ∧
    get_shootings true [cacheEarly] [] = cleanup [cacheEarly] :=
  ⟨C4_cached_run.1 [cacheEarly] [] [rawTotal3], C4_cached_run.2.1 [cacheEarly] []⟩

/-- C9: for either branch, the dataframe get_shootings returns is sorted in
non-decreasing date order, so the head row carries the earliest date and the
last row the latest. -/
theorem C9_sorted_by_date :
    ∀ (cacheExists : Bool) (cache : List CacheRow) (raw : List RawRow),
      ((get_shootings cacheExists cache raw).map Row.date).Sorted PyDate.le ∧
      (∀ h_ ∈ (get_shootings cacheExists cache raw).head?,
        ∀ x ∈ get_shootings cacheExists cache raw, PyDate.le h_.date x.date) ∧
      (∀ z ∈ (get_shootings cacheExists cache raw).getLast?,
        ∀ x ∈ get_shootings cacheExists cache raw, PyDate.le x.date z.date) := by
  intro b cache raw
  obtain ⟨rows, hr⟩ : ∃ rows, get_shootings b cache raw = cleanup rows := by
    cases b
    · exact ⟨freshRows raw, rfl⟩
    · exact ⟨cache, rfl⟩
  rw [hr]
  have hs := cleanup_sorted rows
  exact ⟨hs.map Row.date fun a b h => h,
    sorted_head_le (fun (a : Row) => PyDate.le_refl a.date) hs,
    sorted_le_getLast (fun (a : Row) => PyDate.le_refl a.date) hs⟩

/-- C9, witness: on a concrete two-row cache, the date of the last row
dominates the date of the first. -/
theorem C9_sorted_by_date_witness :
    PyDate.le ⟨2020, 1, 1⟩ ⟨2021, 5, 6⟩ := by
  have h1 : toRow cacheLate ∈ (get_shootings true [cacheLate, cacheEarly] []).getLast? :=
    Option.mem_def.mpr (by decide)
  have h2 : toRow cacheEarly ∈ get_shootings true [cacheLate, cacheEarly] [] := by decide
  exact (C9_sorted_by_date true [cacheLate, cacheEarly] []).2.2 (toRow cacheLate) h1
    (toRow cacheEarly) h2

/-- C2, code bug: when the geocoder raises, get_location does not swallow the
error and return a null result — the second, unguarded geocode call re-raises
(and after a swallowed first-call failure the returned variable is unbound), so
an exception always propagates out of get_location: it does whenever either
call raises. -/
theorem C2_error_propagates :
    get_location .raised .raised = .exn ∧
    get_location .raised (.ok none) = .exn ∧
    get_location (.ok none) .raised = .exn ∧
    (∀ r2 : GeoResult, get_location .raised r2 = .exn) := by
  refine ⟨rfl, rfl, rfl, fun r2 => ?_⟩
  cases r2 <;> rfl

/-- C7, counterexample: a single get_location invocation issues two
back-to-back geocoder calls with no delay between them, violating any positive
minimum-delay policy. -/
theorem C7_counterexample :
    get_location_trace (.ok none) (.ok none) = [.call, .call] ∧
    respectsDelay 1 (get_location_trace (.ok none) (.ok none)) = false := by
  exact ⟨rfl, by decide⟩

/-- C7 (amended): the code enforces no rate limit at all — every get_location
invocation issues exactly two consecutive geocoder calls, with no sleep event
in between, so no positive minimum inter-call delay is respected. -/
theorem C7_no_rate_limiting :
    ∀ (minDelay : Nat) (r1 r2 : GeoResult), 0 < minDelay →
      get_location_trace r1 r2 = [.call, .call] ∧
      respectsDelay minDelay (get_location_trace r1 r2) = false := by
  intro d r1 r2 hd
  refine ⟨rfl, ?_⟩
  show respectsDelay d [.call, .call] = false
  simp [respectsDelay, delayFrom]
  omega

/-- C7, witness: the no-delay fact at a concrete invocation and delay. -/
theorem C7_no_rate_limiting_witness :
    get_location_trace (.ok none) .raised = [.call, .call] ∧
    respectsDelay 2 (get_location_trace (.ok none) .raised) = false :=
  C7_no_rate_limiting 2 (.ok none) .raised (by decide)

/-- C3: whenever any validation step of the form handler fails — a missing
required field, an address that does not geocode, a non-US address, a count
that does not parse, or an invalid date — record_shooting returns a non-empty
user-visible alert, opens it, and writes nothing: the dataset file and the
in-memory record set are left unchanged. -/
theorem C3_validation_failure_no_write :
    ∀ (shootings_df : List Row) (r1 r2 : GeoResult)
      (parseDate : String → Option PyDate) (dv av iv kv : Option String),
      validationFails r1 r2 parseDate dv av iv kv →
      (record_shooting shootings_df r1 r2 parseDate dv av iv kv).alert ≠ "" ∧
      (record_shooting shootings_df r1 r2 parseDate dv av iv kv).alertOpen = true ∧
      (record_shooting shootings_df r1 r2 parseDate dv av iv kv).written = none := by
  intro df r1 r2 pd dv av iv kv h
  have hreq : ∀ (dv' av' iv' kv' : Option String),
      (dv' = none ∨ av' = none ∨ iv' = none ∨ kv' = none) →
      record_shooting df r1 r2 pd dv' av' iv' kv' = ⟨msg_required, true, none⟩ := by
    intro dv' av' iv' kv' hmf
    cases dv' <;> cases av' <;> cases iv' <;> cases kv' <;>
      first
        | rfl
        | (rcases hmf with h' | h' | h' | h' <;> simp at h')
  cases dv with
  | none =>
    rw [hreq _ _ _ _ (Or.inl rfl)]
    exact ⟨by decide, rfl, rfl⟩
  | some dvs =>
  cases av with
  | none =>
    rw [hreq _ _ _ _ (Or.inr (Or.inl rfl))]
    exact ⟨by decide, rfl, rfl⟩
  | some avs =>
  cases iv with
  | none =>
    rw [hreq _ _ _ _ (Or.inr (Or.inr (Or.inl rfl)))]
    exact ⟨by decide, rfl, rfl⟩
  | some ivs =>
  cases kv with
  | none =>
    rw [hreq _ _ _ _ (Or.inr (Or.inr (Or.inr rfl)))]
    exact ⟨by decide, rfl, rfl⟩
  | some kvs =>
  have hstep : record_shooting df r1 r2 pd (some dvs) (some avs) (some ivs) (some kvs) =
      geocodeStage df pd dvs ivs kvs r1 r2 := rfl
  rw [hstep]
  cases hg : get_location r1 r2 with
  | exn =>
    have hres : geocodeStage df pd dvs ivs kvs r1 r2 = ⟨msg_address, true, none⟩ := by
      simp [geocodeStage, hg]
    rw [hres]
    exact ⟨by decide, rfl, rfl⟩
  | ok olo =>
  cases olo with
  | none =>
    have hres : geocodeStage df pd dvs ivs kvs r1 r2 = ⟨msg_address, true, none⟩ := by
      simp [geocodeStage, hg]
    rw [hres]
    exact ⟨by decide, rfl, rfl⟩
  | some loc =>
  by_cases hlen : 4 ≤ (locationParts loc).length
  · have hres : geocodeStage df pd dvs ivs kvs r1 r2 =
        usStage df pd dvs ivs kvs loc
          (partAddress loc) (partCity loc) (partState loc) (partCountry loc) := by
      simp [geocodeStage, hg, hlen]
    rw [hres]
    by_cases hus : isUSCountry (partCountry loc) = true
    · rw [usStage, if_pos hus]
      cases hpi : pyInt ivs with
      | none =>
        have hcs : countStage df pd dvs ivs kvs loc
            (partAddress loc) (partCity loc) (partState loc) (partCountry loc) =
            ⟨msg_counts, true, none⟩ := by
          simp [countStage, hpi]
        rw [hcs]
        exact ⟨by decide, rfl, rfl⟩
      | some inj =>
      cases hpk : pyInt kvs with
      | none =>
        have hcs : countStage df pd dvs ivs kvs loc
            (partAddress loc) (partCity loc) (partState loc) (partCountry loc) =
            ⟨msg_counts, true, none⟩ := by
          simp [countStage, hpi, hpk]
        rw [hcs]
        exact ⟨by decide, rfl, rfl⟩
      | some kil =>
      cases hpd : pd dvs with
      | none =>
        have hcs : countStage df pd dvs ivs kvs loc
            (partAddress loc) (partCity loc) (partState loc) (partCountry loc) =
            ⟨msg_date, true, none⟩ := by
          simp [countStage, hpi, hpk, dateStage, hpd]
        rw [hcs]
        exact ⟨by decide, rfl, rfl⟩
      | some d =>
        exfalso
        rcases h with hm | hgf | hnus | hcu | hid
        · rcases hm with h' | h' | h' | h' <;> simp [missingField] at h'
        · rcases hgf with h' | h' | ⟨loc', hle, hlt⟩
          · rw [hg] at h'
            exact PyResult.noConfusion h'
          · rw [hg] at h'
            simp at h'
          · rw [hg] at hle
            have hll : loc = loc' := by simpa using hle
            rw [← hll] at hlt
            omega
        · rcases hnus with ⟨c, hc, hcf⟩
          rw [resolvedCountry, hg] at hc
          simp only [if_pos hlen] at hc
          rw [← Option.some.inj hc] at hcf
          rw [hcf] at hus
          exact Bool.noConfusion hus
        · rcases hcu with ⟨s, hs1, hs2⟩ | ⟨s, hs1, hs2⟩
          · rw [← Option.some.inj hs1] at hs2
            rw [hpi] at hs2
            exact Option.noConfusion hs2
          · rw [← Option.some.inj hs1] at hs2
            rw [hpk] at hs2
            exact Option.noConfusion hs2
        · rcases hid with ⟨s, hs1, hs2⟩
          rw [← Option.some.inj hs1] at hs2
          rw [hpd] at hs2
          exact Option.noConfusion hs2
    · rw [usStage, if_neg hus]
      exact ⟨by decide, rfl, rfl⟩
  · have hres : geocodeStage df pd dvs ivs kvs r1 r2 = ⟨msg_address, true, none⟩ := by
      simp [geocodeStage, hg, hlen]
    rw [hres]
    exact ⟨by decide, rfl, rfl⟩

/-- C3, witness: a concrete failing submission (missing date) yields an alert
and no write. -/
theorem C3_validation_failure_no_write_witness :
    (record_shooting [] (.ok (some locUS)) (.ok none) sampleParseDate
      none (some "a") (some "1") (some "2")).alert ≠ "" ∧
    (record_shooting [] (.ok (some locUS)) (.ok none) sampleParseDate
      none (some "a") (some "1") (some "2")).alertOpen = true ∧
    (record_shooting [] (.ok (some locUS)) (.ok none) sampleParseDate
      none (some "a") (some "1") (some "2")).written = none :=
  C3_validation_failure_no_write [] (.ok (some locUS)) (.ok none) sampleParseDate
    none (some "a") (some "1") (some "2") (Or.inl (Or.inl rfl))

/-- C5, code bug: the form handler is supposed to refuse counts that are not
non-negative integers (its own alert texts say so), and it does refuse
unparsable counts, but a negative count passes int() unchecked: the submission
with injured "-5" is accepted and appended with n_injured = -5, while the same
submission with an unparsable injured value is refused with no write. -/
theorem C5_negative_count_accepted :
    (record_shooting [] (.ok (some locUS)) (.ok none) sampleParseDate
      (some "2020-01-01") (some "a") (some "-5") (some "2")).written =
      some [rowNeg5] ∧
    rowNeg5.n_injured = -5 ∧
    rowNeg5.n_injured < 0 ∧
    record_shooting [] (.ok (some locUS)) (.ok none) sampleParseDate
      (some "2020-01-01") (some "a") (some "x") (some "2") =
      ⟨msg_counts, true, none⟩ := by
  exact ⟨by decide, by decide, by decide, by decide⟩

/-- C6: a record is written only when the resolved country, lowercased, is one
of exactly "united states", "usa", "u.s.a.", "united states of america"; and
whenever the address resolves to a country outside that allow-list (with all
fields present, so the check is reached), the handler returns the dedicated
user-facing alert, opened, and writes nothing. -/
theorem C6_country_allowlist :
    ∀ (shootings_df : List Row) (r1 r2 : GeoResult)
      (parseDate : String → Option PyDate) (dv av iv kv : Option String),
      (∀ df', (record_shooting shootings_df r1 r2 parseDate dv av iv kv).written =
          some df' →
        ∃ c, resolvedCountry r1 r2 = some c ∧ isUSCountry c = true) ∧
      (∀ c, resolvedCountry r1 r2 = some c → isUSCountry c = false →
        dv ≠ none → av ≠ none → iv ≠ none → kv ≠ none →
        record_shooting shootings_df r1 r2 parseDate dv av iv kv =
          ⟨msg_us, true, none⟩) := by
  intro df r1 r2 pd dv av iv kv
  constructor
  · intro df' h
    obtain ⟨loc, c, row, _, hc, hus, _⟩ :=
      written_isSome_spec df r1 r2 pd dv av iv kv df' h
    exact ⟨c, hc, hus⟩
  · intro c hc hcf hdv hav hiv hkv
    cases dv with
    | none => exact absurd rfl hdv
    | some dvs =>
    cases av with
    | none => exact absurd rfl hav
    | some avs =>
    cases iv with
    | none => exact absurd rfl hiv
    | some ivs =>
    cases kv with
    | none => exact absurd rfl hkv
    | some kvs =>
    cases hg : get_location r1 r2 with
    | exn =>
      rw [resolvedCountry, hg] at hc
      exact Option.noConfusion hc
    | ok olo =>
    cases olo with
    | none =>
      rw [resolvedCountry, hg] at hc
      exact Option.noConfusion hc
    | some loc =>
    simp only [resolvedCountry, hg] at hc
    by_cases hlen : 4 ≤ (locationParts loc).length
    · rw [if_pos hlen] at hc
      have hcc : partCountry loc = c := Option.some.inj hc
      have hx : ¬ isUSCountry (partCountry loc) = true := by
        rw [hcc, hcf]
        exact Bool.false_ne_true
      show geocodeStage df pd dvs ivs kvs r1 r2 = ⟨msg_us, true, none⟩
      have hres : geocodeStage df pd dvs ivs kvs r1 r2 =
          usStage df pd dvs ivs kvs loc
            (partAddress loc) (partCity loc) (partState loc) (partCountry loc) := by
        simp [geocodeStage, hg, hlen]
      rw [hres, usStage, if_neg hx]
    · rw [if_neg hlen] at hc
      exact Option.noConfusion hc

/-- C6, witness: a concrete submission resolving to France is refused with the
US-only alert and no write. -/
theorem C6_country_allowlist_witness :
    record_shooting [] (.ok (some ⟨"A,B,C,France", 1, 2⟩)) (.ok none)
      sampleParseDate (some "2020-01-01") (some "a") (some "1") (some "2") =
      ⟨msg_us, true, none⟩ :=
  (C6_country_allowlist [] (.ok (some ⟨"A,B,C,France", 1, 2⟩)) (.ok none)
      sampleParseDate (some "2020-01-01") (some "a") (some "1") (some "2")).2
    "France" (by decide) (by decide) (by decide) (by decide) (by decide) (by decide)

/-- C8, counterexample: a form submission with a negative injured count is
accepted, and the appended record violates total_count >= dead_count: the
written row has total 1 but n_killed 2. -/
theorem C8_counterexample :
    (record_shooting [] (.ok (some locUS)) (.ok none) sampleParseDate
      (some "2020-01-01") (some "a") (some "-1") (some "2")).written =
      some [rowNeg1] ∧
    rowNeg1.total < rowNeg1.n_killed := by
  exact ⟨by decide, by decide⟩

/-- C8 (amended): every record carries total = n_killed + n_injured — the
pipeline computes the total column that way in both branches, and the form
handler computes total as the sum of the parsed counts — and consequently
total >= n_killed holds exactly when n_injured >= 0, which the pipeline data
satisfies whenever its stored counts are non-negative but the form does not
enforce. -/
theorem C8_total_invariant :
    (∀ (cacheExists : Bool) (cache : List CacheRow) (raw : List RawRow),
      ∀ r ∈ get_shootings cacheExists cache raw,
        r.total = r.n_killed + r.n_injured ∧
        (0 ≤ r.n_injured → r.n_killed ≤ r.total)) ∧
    (∀ (shootings_df : List Row) (r1 r2 : GeoResult)
        (parseDate : String → Option PyDate)
        (dv av iv kv : Option String) (df' : List Row),
      (record_shooting shootings_df r1 r2 parseDate dv av iv kv).written =
        some df' →
      ∃ row : Row, df' = shootings_df ++ [row] ∧
        row.total = row.n_injured + row.n_killed ∧
        (0 ≤ row.n_injured → row.n_killed ≤ row.total)) := by
  constructor
  · intro b cache raw r hr
    obtain ⟨rows, hrows⟩ : ∃ rows, get_shootings b cache raw = cleanup rows := by
      cases b
      · exact ⟨freshRows raw, rfl⟩
      · exact ⟨cache, rfl⟩
    rw [hrows] at hr
    obtain ⟨c, rfl⟩ := mem_cleanup hr
    refine ⟨rfl, fun hinj => ?_⟩
    show c.n_killed ≤ c.n_killed + c.n_injured
    have h0 : (0 : Int) ≤ c.n_injured := hinj
    omega
  · intro df r1 r2 pd dv av iv kv df' h
    obtain ⟨loc, c, row, _, _, _, hdf, htot, _, _⟩ :=
      written_isSome_spec df r1 r2 pd dv av iv kv df' h
    refine ⟨row, hdf, htot, fun h0 => ?_⟩
    rw [htot]
    omega

/-- C8, witness: the amended invariant at a concrete pipeline record and a
concrete accepted form submission. -/
theorem C8_total_invariant_witness :
    ((toRow cacheEarly).total = (toRow cacheEarly).n_killed +
        (toRow cacheEarly).n_injured ∧
      (0 ≤ (toRow cacheEarly).n_injured →
        (toRow cacheEarly).n_killed ≤ (toRow cacheEarly).total)) ∧
    ∃ row : Row, [rowNeg1] = [] ++ [row] ∧
      row.total = row.n_injured + row.n_killed ∧
      (0 ≤ row.n_injured → row.n_killed ≤ row.total) :=
  ⟨C8_total_invariant.1 true [cacheEarly] [] (toRow cacheEarly) (by decide),
    C8_total_invariant.2 [] (.ok (some locUS)) (.ok none) sampleParseDate
      (some "2020-01-01") (some "a") (some "-1") (some "2") [rowNeg1] (by decide)⟩

/-- C10: get_shootings_by_month returns one row per distinct month present in
the input (month_numbers are duplicate-free and are exactly the months
occurring in the date column), sorted in ascending month_number order, and the
per-month shooting counts sum to the number of input rows: the group-by
partitions the record set. -/
theorem C10_month_partition :
    ∀ df : List Row,
      ((get_shootings_by_month df).map MonthCount.month_number).Nodup ∧
      (∀ m : Nat, m ∈ (get_shootings_by_month df).map MonthCount.month_number ↔
        m ∈ df.map fun r => r.date.month) ∧
      ((get_shootings_by_month df).map MonthCount.month_number).Sorted (· ≤ ·) ∧
      ((get_shootings_by_month df).map MonthCount.shootings).sum = df.length := by
  intro df
  have hshape : ∀ p ∈ (df.map monthKey).dedup, p.1 = month_name p.2 := by
    intro p hp
    rcases List.mem_map.mp (List.mem_dedup.mp hp) with ⟨r, _, rfl⟩
    rfl
  have hgm : get_shootings_by_month df =
      List.insertionSort byMonthNumber
        ((df.map monthKey).dedup.map fun k =>
          MonthCount.mk k.1 k.2 ((df.map monthKey).count k)) := rfl
  have hperm :
      List.Perm
        (List.insertionSort byMonthNumber
          ((df.map monthKey).dedup.map fun k =>
            MonthCount.mk k.1 k.2 ((df.map monthKey).count k)))
        ((df.map monthKey).dedup.map fun k =>
          MonthCount.mk k.1 k.2 ((df.map monthKey).count k)) :=
    List.perm_insertionSort byMonthNumber _
  refine ⟨?_, ?_, ?_, ?_⟩
  · rw [hgm]
    apply (List.Perm.nodup_iff (hperm.map MonthCount.month_number)).mpr
    rw [List.map_map]
    show ((df.map monthKey).dedup.map fun k => k.2).Nodup
    apply List.Nodup.map_on _ (List.nodup_dedup (df.map monthKey))
    intro x hx y hy hxy
    rcases x with ⟨x1, x2⟩
    rcases y with ⟨y1, y2⟩
    have hx1 : x1 = month_name x2 := hshape _ hx
    have hy1 : y1 = month_name y2 := hshape _ hy
    simp only at hxy
    subst hxy
    rw [hx1, hy1]
  · intro m
    rw [hgm, List.Perm.mem_iff (hperm.map MonthCount.month_number)]
    rw [List.map_map]
    show m ∈ ((df.map monthKey).dedup.map fun k => k.2) ↔ _
    simp only [List.mem_map, List.mem_dedup, monthKey]
    constructor
    · rintro ⟨p, ⟨r, hr, rfl⟩, rfl⟩
      exact ⟨r, hr, rfl⟩
    · rintro ⟨r, hr, rfl⟩
      exact ⟨(month_name r.date.month, r.date.month), ⟨r, hr, rfl⟩, rfl⟩
  · rw [hgm]
    exact (List.sorted_insertionSort byMonthNumber _).map
      MonthCount.month_number fun a b h => h
  · rw [hgm, List.Perm.sum_eq (hperm.map MonthCount.shootings), List.map_map]
    have hmap : (MonthCount.shootings ∘ fun k : String × Nat =>
        MonthCount.mk k.1 k.2 ((df.map monthKey).count k)) =
        fun k => (df.map monthKey).count k := rfl
    rw [hmap]
    have hsum := sum_count_dedup (df.map monthKey)
    rw [List.length_map] at hsum
    exact hsum

/-- C10, witness: on a concrete two-row dataframe the per-month counts sum to
the number of rows. -/
theorem C10_month_partition_witness :
    ((get_shootings_by_month [toRow cacheEarly, toRow cacheLate]).map
      MonthCount.shootings).sum = 2 := by
  have h := (C10_month_partition [toRow cacheEarly, toRow cacheLate]).2.2.2
  simpa using h

end Run
